import Mathlib

/-!
Verification of the persistent secret-store core of `src/firmware/storage.c`
(hardware-wallet storage: record commit/merge, monotonic flash counters,
session cache, session-state hash, constant-time comparisons).

Modelling conventions, used throughout:

* Machine integers are natural numbers; 32-bit overflow is written as an
  explicit `% 4294967296` exactly where the C type would wrap.
* C byte buffers holding NUL-terminated strings are modelled by the list of
  their bytes up to (excluding) the first NUL.  `storage_clear_update`
  zeroizes the staged record before any string is staged into it and
  `strlcpy` always NUL-terminates, so a buffer of capacity `n` always holds
  its string followed by zero padding; reading the buffer at an index past
  the string (as the constant-time comparators do) therefore yields 0, which
  the model expresses with `List.getD _ 0`.  `strlcpy(dst, src, n)` becomes
  `List.take (n-1)`.
* The flash driver primitives (`flash_write32`, sector erase) are modelled as
  stores into the corresponding model field; every value the code programs
  only clears bits of the previous contents (the code verifies this by
  reading back), so a functioning-flash store is exact.
* The cryptographic primitives (HMAC-SHA-256, BIP-0039 seed derivation,
  BIP-0032 node derivation) are external libraries in the source and are
  kept abstract: functions that call them either take the primitive as an
  explicit function argument or, for `session_getState`, return the exact
  key and message the code hands to the primitive.
* The build modelled is the mainline MCU build: `CRYPTOMEM` disabled,
  `SUPPORT_LEGACY_VERSION` enabled (the configuration whose migration logic
  the specification describes), `EMULATOR`/`DEBUG_LINK` disabled.
-/

set_option maxRecDepth 4000

/-- `STORAGE_VERSION` (storage.c line 120). -/
def STORAGE_VERSION : Nat := 0x10001

/-- Magic constant marking a valid storage block, `'stor'` (storage.c line 50). -/
def storage_magic : Nat := 0x726f7473

/-- Value of an erased 32-bit NOR-flash word (all bits set). -/
def FLASH_ERASED_WORD : Nat := 0xffffffff

/-- Number of 32-bit words in the PIN-failure area:
`FLASH_STORAGE_PINAREA_LEN / 4 = 0x1000 / 4` (storage.c line 91). -/
def PINAREA_WORDS : Nat := 1024

/-- Number of 32-bit words in the U2F counter area:
`FLASH_STORAGE_U2FAREA_LEN / 4 = 0x100 / 4` (storage.c line 93). -/
def U2FAREA_WORDS : Nat := 64

/-- Number of usable bits in the U2F area, `8 * FLASH_STORAGE_U2FAREA_LEN`
(storage.c line 1116). -/
def U2F_BITS : Nat := 8 * 0x100

/-- The serialized HD node stored inside the record (`StorageHDNode` of
messages.pb: depth, fingerprint, child number, chain code bytes, optional
private key bytes). -/
structure StorageHDNode where
  depth : Nat
  fingerprint : Nat
  child_num : Nat
  chain_code : List Nat
  has_private_key : Bool
  private_key : List Nat
deriving DecidableEq, Repr

/-- An all-zero HD node (the contents of an erased/zero-filled record). -/
def nodeZero : StorageHDNode :=
  { depth := 0, fingerprint := 0, child_num := 0,
    chain_code := List.replicate 32 0, has_private_key := false,
    private_key := List.replicate 32 0 }

/-- The `Storage` record (messages.pb), one presence bit per optional field.
String buffers are modelled as byte lists (see file header); capacities are
mnemonic 241, pin 10, language 17, label 33, homescreen 1024. -/
structure Storage where
  version : Nat
  has_node : Bool
  node : StorageHDNode
  has_mnemonic : Bool
  mnemonic : List Nat
  has_passphrase_protection : Bool
  passphrase_protection : Bool
  has_pin : Bool
  pin : List Nat
  has_language : Bool
  language : List Nat
  has_label : Bool
  label : List Nat
  has_imported : Bool
  imported : Bool
  has_homescreen : Bool
  homescreen_size : Nat
  homescreen_bytes : List Nat
  has_u2f_counter : Bool
  u2f_counter : Nat
  has_needs_backup : Bool
  needs_backup : Bool
  has_flags : Bool
  flags : Nat
  has_u2froot : Bool
  u2froot : StorageHDNode
deriving DecidableEq, Repr

/-- The all-zero record: what a zero-filled flash record region decodes to,
and the state of `storageUpdate` after `storage_clear_update` (storage.c
lines 429-432). -/
def emptyStorage : Storage :=
  { version := 0,
    has_node := false, node := nodeZero,
    has_mnemonic := false, mnemonic := [],
    has_passphrase_protection := false, passphrase_protection := false,
    has_pin := false, pin := [],
    has_language := false, language := [],
    has_label := false, label := [],
    has_imported := false, imported := false,
    has_homescreen := false, homescreen_size := 0, homescreen_bytes := [],
    has_u2f_counter := false, u2f_counter := 0,
    has_needs_backup := false, needs_backup := false,
    has_flags := false, flags := 0,
    has_u2froot := false, u2froot := nodeZero }

/-- The volatile session cache (storage.c lines 107-114): seed cache with its
passphrase-mode bit, the 64-byte seed buffer, the cached-PIN flag, and the
passphrase cache with its 51-byte buffer (modelled as its string bytes). -/
structure SessionState where
  seedCached : Bool
  seedUsesPassphrase : Bool
  seed : List Nat
  pinCached : Bool
  passphraseCached : Bool
  passphrase : List Nat
deriving DecidableEq, Repr

/-- The session cache at boot (BSS-zeroed). -/
def emptySession : SessionState :=
  { seedCached := false, seedUsesPassphrase := false,
    seed := List.replicate 64 0, pinCached := false,
    passphraseCached := false, passphrase := [] }

/-- `session_clear(clear_pin)` (storage.c lines 264-276): drop and zeroize the
seed and passphrase caches; drop the cached-PIN flag only when `clear_pin`.
`sessionSeedUsesPassphrase` is not touched. -/
def session_clear (clear_pin : Bool) (s : SessionState) : SessionState :=
  { seedCached := false, seedUsesPassphrase := s.seedUsesPassphrase,
    seed := List.replicate 64 0, passphraseCached := false, passphrase := [],
    pinCached := if clear_pin then false else s.pinCached }

/-- The merge performed by `storage_commit_locked(true)` on the staged record
(storage.c lines 314-399), one field block per C statement block.  The C code
mutates `storageUpdate` block by block, but each block writes only its own
fields and reads only its own fields of the update plus `storageRom`, so the
sequential mutation equals this per-field description.  `cu` abstracts
`storage_compute_u2froot` (BIP-0039 + BIP-0032 on the mnemonic, lines
292-308), whose session side effect is handled in `storage_commit_locked`
below. -/
def mergeStorage (cu : List Nat → StorageHDNode) (rom upd : Storage) : Storage :=
  { version := STORAGE_VERSION
    -- lines 324-335: if neither node nor mnemonic is staged, carry
    -- node, mnemonic and u2froot from rom as a unit
    has_node := if !upd.has_node && !upd.has_mnemonic then rom.has_node else upd.has_node
    node := if !upd.has_node && !upd.has_mnemonic then rom.node else upd.node
    has_mnemonic := if !upd.has_node && !upd.has_mnemonic then rom.has_mnemonic else upd.has_mnemonic
    mnemonic := if !upd.has_node && !upd.has_mnemonic then rom.mnemonic.take 240 else upd.mnemonic
    -- lines 336-351: a staged mnemonic forces recomputation of u2froot
    has_u2froot :=
      if !upd.has_node && !upd.has_mnemonic then rom.has_u2froot
      else if upd.has_mnemonic then true else upd.has_u2froot
    u2froot :=
      if !upd.has_node && !upd.has_mnemonic then rom.u2froot
      else if upd.has_mnemonic then cu upd.mnemonic else upd.u2froot
    -- lines 352-355
    has_passphrase_protection :=
      if !upd.has_passphrase_protection then rom.has_passphrase_protection
      else upd.has_passphrase_protection
    passphrase_protection :=
      if !upd.has_passphrase_protection then rom.passphrase_protection
      else upd.passphrase_protection
    -- lines 356-365: an empty staged pin demotes has_pin
    has_pin :=
      if !upd.has_pin then rom.has_pin
      else if upd.pin.getD 0 0 = 0 then false else upd.has_pin
    pin := if !upd.has_pin then rom.pin.take 9 else upd.pin
    -- lines 367-370
    has_language := if !upd.has_language then rom.has_language else upd.has_language
    language := if !upd.has_language then rom.language.take 16 else upd.language
    -- lines 371-376: an empty staged label demotes has_label
    has_label :=
      if !upd.has_label then rom.has_label
      else if upd.label.getD 0 0 = 0 then false else upd.has_label
    label := if !upd.has_label then rom.label.take 32 else upd.label
    -- lines 377-380
    has_imported := if !upd.has_imported then rom.has_imported else upd.has_imported
    imported := if !upd.has_imported then rom.imported else upd.imported
    -- lines 381-386: a zero-size staged homescreen demotes has_homescreen
    has_homescreen :=
      if !upd.has_homescreen then rom.has_homescreen
      else if upd.homescreen_size = 0 then false else upd.has_homescreen
    homescreen_size := if !upd.has_homescreen then rom.homescreen_size else upd.homescreen_size
    homescreen_bytes := if !upd.has_homescreen then rom.homescreen_bytes else upd.homescreen_bytes
    -- lines 387-390
    has_u2f_counter := if !upd.has_u2f_counter then rom.has_u2f_counter else upd.has_u2f_counter
    u2f_counter := if !upd.has_u2f_counter then rom.u2f_counter else upd.u2f_counter
    -- lines 391-394
    has_needs_backup := if !upd.has_needs_backup then rom.has_needs_backup else upd.has_needs_backup
    needs_backup := if !upd.has_needs_backup then rom.needs_backup else upd.needs_backup
    -- lines 395-398
    has_flags := if !upd.has_flags then rom.has_flags else upd.has_flags
    flags := if !upd.has_flags then rom.flags else upd.flags }

/-- Session-cache side effects of `storage_commit_locked(true)`: lines
314-321 drop the seed/passphrase caches when passphrase protection is staged
and the PIN cache when a PIN is staged; when a mnemonic is staged (and the
carry-from-rom branch was not taken), `storage_compute_u2froot` overwrites
`sessionSeed` and then calls `session_clear(false)` (lines 292-308). -/
def commitSession (upd : Storage) (sess : SessionState) : SessionState :=
  let s1 : SessionState :=
    { sess with
      seedCached := if upd.has_passphrase_protection then false else sess.seedCached,
      passphraseCached := if upd.has_passphrase_protection then false else sess.passphraseCached,
      pinCached := if upd.has_pin then false else sess.pinCached }
  if !upd.has_node && !upd.has_mnemonic then s1
  else if upd.has_mnemonic then session_clear false s1
  else s1

/-- `storage_commit_locked(update)` (storage.c lines 312-427) restricted to
its effect on the record, the staged update and the session: with `update`
true the merged record is written to flash and becomes the new rom; with
`update` false (the wipe path) the record region is left zero-filled.  In
both cases the staged update is cleared (line 420). -/
def storage_commit_locked (cu : List Nat → StorageHDNode) (update : Bool)
    (rom upd : Storage) (sess : SessionState) : Storage × Storage × SessionState :=
  if update then (mergeStorage cu rom upd, emptyStorage, commitSession upd sess)
  else (emptyStorage, emptyStorage, sess)

/-- `storage_applyFlags(flags)` (storage.c lines 1092-1099): no-op when the
rom flags already contain all requested bits, otherwise OR the bits into the
staged update's `flags` field. -/
def storage_applyFlags (flags : Nat) (rom upd : Storage) : Storage :=
  if rom.flags ||| flags = rom.flags then upd
  else { upd with has_flags := true, flags := upd.flags ||| flags }

/-- `storage_getFlags()` (storage.c lines 1101-1104). -/
def storage_getFlags (rom : Storage) : Nat :=
  if rom.has_flags then rom.flags else 0

/-- `storage_needsBackup()` (storage.c lines 1080-1084): reads the staged
update before the committed rom. -/
def storage_needsBackup (rom upd : Storage) : Bool :=
  if upd.has_needs_backup then upd.needs_backup
  else rom.has_needs_backup && rom.needs_backup

/-- `storage_setNeedsBackup(needs_backup)` (storage.c lines 1086-1090). -/
def storage_setNeedsBackup (needs_backup : Bool) (upd : Storage) : Storage :=
  { upd with has_needs_backup := true, needs_backup := needs_backup }

/-- A trivial stand-in for the external `storage_compute_u2froot` primitive,
used to instantiate closed evaluations whose control flow never invokes it. -/
def trivialCu : List Nat → StorageHDNode := fun _ => nodeZero

/-- `storage_setPin(pin)` (storage.c lines 901-918, CRYPTOMEM disabled):
stage the PIN string (capacity 10, so at most 9 bytes are copied) and drop
the cached-PIN flag.  The seed and passphrase caches are not touched. -/
def storage_setPin (pin : List Nat) (upd : Storage) (sess : SessionState) :
    Storage × SessionState :=
  ({ upd with has_pin := true, pin := pin.take 9 },
   { sess with pinCached := false })

/-- `storage_setPassphraseProtection(passphrase_protection)` (storage.c lines
558-565): drop the seed and passphrase cache flags (without zeroizing the
buffers) and stage the new setting. -/
def storage_setPassphraseProtection (passphrase_protection : Bool)
    (upd : Storage) (sess : SessionState) : Storage × SessionState :=
  ({ upd with has_passphrase_protection := true,
              passphrase_protection := passphrase_protection },
   { sess with seedCached := false, passphraseCached := false })

/-- `session_cachePassphrase(passphrase)` (storage.c lines 920-924):
`strlcpy` into the 51-byte buffer, so at most 50 bytes are kept. -/
def session_cachePassphrase (passphrase : List Nat) (sess : SessionState) :
    SessionState :=
  { sess with passphrase := passphrase.take 50, passphraseCached := true }

/-- `storage_getSeed(usePassphrase)` (storage.c lines 640-682, CRYPTOMEM
disabled).  External collaborators appear as arguments: `m2s` is
`mnemonic_to_seed` (BIP-0039: mnemonic and passphrase to 64-byte seed),
`mnemonic_check` the BIP-0039 validity check, and `protectPassphraseFn` the
external passphrase prompt (which caches a passphrase into the session on
success).  The fatal `storage_show_error` path (invalid stored mnemonic on a
non-imported device) halts the device and is modelled as `none`. -/
def storage_getSeed (m2s : List Nat → List Nat → List Nat)
    (mnemonic_check : List Nat → Bool)
    (protectPassphraseFn : SessionState → Bool × SessionState)
    (rom : Storage) (sess : SessionState) (usePassphrase : Bool) :
    Option (List Nat) × SessionState :=
  if usePassphrase == sess.seedUsesPassphrase && sess.seedCached then
    (some sess.seed, sess)
  else if rom.has_mnemonic then
    let pp := if usePassphrase then protectPassphraseFn sess else (true, sess)
    if usePassphrase && !pp.1 then (none, pp.2)
    else if (!rom.has_imported || !rom.imported) && !mnemonic_check rom.mnemonic then
      (none, pp.2)
    else
      let seed := m2s rom.mnemonic (if usePassphrase then pp.2.passphrase else [])
      (some seed,
       { pp.2 with seed := seed, seedCached := true, seedUsesPassphrase := usePassphrase })
  else (none, sess)

/-- The key and message `session_getState` hands to the external
HMAC-SHA-256 primitive: `state[32..64] = hmac_sha256(call.key, call.msg)`. -/
structure HmacCall where
  key : List Nat
  msg : List Nat
deriving DecidableEq, Repr

/-- `session_getState(salt, state, passphrase)` (storage.c lines 931-956).
Returns `none` exactly when the call returns false.  On success the result
carries `state[0..32]` (the provided salt, or the 32 random bytes `rnd` when
no salt is given) together with the key and message passed to HMAC-SHA-256.
Note the source line 936: whenever the guard passes, the `passphrase`
argument is replaced by the cached `sessionPassphrase` buffer, so the
supplied passphrase only serves as a non-null flag. -/
def session_getState (rnd uuid : List Nat) (salt : Option (List Nat))
    (passphrase : Option (List Nat)) (sess : SessionState) :
    Option (List Nat × HmacCall) :=
  if passphrase.isNone && !sess.passphraseCached then none
  else
    -- line 936: passphrase = sessionPassphrase;
    let key := sess.passphrase
    let firstHalf := match salt with
      | none => rnd.take 32
      | some s => s.take 32
    some (firstHalf, { key := key, msg := firstHalf ++ uuid })

/-- Shared loop of the constant-time comparators `storage_containsMnemonic`
(storage.c lines 822-842) and on-MCU `storage_containsPin` (lines 869-890):
walk the candidate string, OR-accumulating the byte difference
`stored[i] - cand[i]` (8-bit wrap-around subtraction), and finally OR in the
stored byte at the candidate's length (the sentinel).  The stored buffer is
its string followed by zero padding, so reads past the string yield 0. -/
def ctDiffByte (a b : Nat) : Nat := (a + (256 - b % 256)) % 256

def ctAcc : List Nat → List Nat → Nat
  | stored, [] => stored.getD 0 0
  | stored, c :: cs => ctDiffByte (stored.getD 0 0) c ||| ctAcc (stored.drop 1) cs

/-- `storage_containsMnemonic(mnemonic)` (storage.c lines 822-842, CRYPTOMEM
disabled): true iff the accumulated difference is zero. -/
def storage_containsMnemonic (rom : Storage) (cand : List Nat) : Bool :=
  ctAcc rom.mnemonic cand = 0

/-- On-MCU `storage_containsPin(pin)` (storage.c lines 869-890, CRYPTOMEM
disabled): the same accumulation over the stored PIN buffer. -/
def storage_containsPin (rom : Storage) (cand : List Nat) : Bool :=
  ctAcc rom.pin cand = 0

/-- Read a 32-bit word of a flash area (the area is a list of words; erased
or out-of-range words past the modelled region read as 0 only where the code
cannot reach them). -/
def pinWord (area : List Nat) (i : Nat) : Nat := area.getD i 0

/-- A freshly erased PIN-failure area. -/
def freshPinArea : List Nat := List.replicate PINAREA_WORDS FLASH_ERASED_WORD

/-- A freshly erased U2F area. -/
def freshU2FArea : List Nat := List.replicate U2FAREA_WORDS FLASH_ERASED_WORD

/-- Scanning loop of `storage_getPinFailsOffset()` (storage.c lines
1056-1062): the index of the first non-zero word. -/
def pinFailsOffsetAux : List Nat → Nat → Nat
  | [], i => i
  | w :: ws, i => if w = 0 then pinFailsOffsetAux ws (i + 1) else i

/-- `storage_getPinFailsOffset()` (storage.c lines 1056-1062), as a word
index into the PIN area. -/
def storage_getPinFailsOffset (area : List Nat) : Nat :=
  pinFailsOffsetAux area 0

/-- `storage_getPinWait(flash_pinfails)` (storage.c lines 1048-1053): the
bitwise complement of the 32-bit word, i.e. `0xffffffff - word` for an
in-range word. -/
def storage_getPinWait (area : List Nat) (i : Nat) : Nat :=
  FLASH_ERASED_WORD - pinWord area i

/-- `storage_increasePinFails(flash_pinfails)` (storage.c lines 1020-1034):
shift the current word left by one; if the result is zero the counter is
saturated and nothing is written (returning true so a good PIN is still
accepted); otherwise program the new value and confirm it by reading back. -/
def storage_increasePinFails (area : List Nat) (i : Nat) : Bool × List Nat :=
  let newctr := (pinWord area i <<< 1) % 4294967296
  if newctr = 0 then (true, area)
  else
    let area2 := area.set i newctr
    (pinWord area2 i = newctr, area2)

/-- `storage_resetPinFails(flash_pinfails)` (storage.c lines 1001-1017,
CRYPTOMEM disabled): if programming the next word would run past the area,
recycle the sector with `new_pinfails = 0xffffffff` (which leaves the PIN
area freshly erased; the accompanying storage-record commit is modelled in
the device-level machine below); otherwise program 0 over the current word,
making the next word current. -/
def storage_resetPinFails (area : List Nat) (i : Nat) : List Nat :=
  if i + 1 ≥ PINAREA_WORDS then freshPinArea
  else area.set i 0

/-- `k` consecutive `storage_increasePinFails` calls, each at the current
(first non-zero) word, as performed after `k` failed PIN attempts. -/
def pinFailsIter : Nat → List Nat → List Nat
  | 0, area => area
  | k + 1, area =>
      let area2 := pinFailsIter k area
      (storage_increasePinFails area2 (storage_getPinFailsOffset area2)).2

/-- The device state visible to the storage core: the magic word and uuid of
the meta sector, the committed record (`storageRom`), the staged update
(`storageUpdate`), the PIN-failure and U2F counter areas of the last meta
sector, `storage_u2f_offset`, the session cache, and a ghost counter of
sector recycles (instrumentation only; no operation reads it). -/
structure DeviceState where
  magic : Nat
  uuid : List Nat
  rom : Storage
  upd : Storage
  pinArea : List Nat
  u2fArea : List Nat
  u2fOffset : Nat
  sess : SessionState
  recycles : Nat
deriving DecidableEq, Repr

/-- `storage_clearPinArea()` (storage.c lines 968-974): erase the last meta
sector (which holds both the PIN-failure and the U2F areas) and reset
`storage_u2f_offset`. -/
def storage_clearPinArea (d : DeviceState) : DeviceState :=
  { d with pinArea := freshPinArea, u2fArea := freshU2FArea, u2fOffset := 0 }

/-- `storage_wipe()` (storage.c lines 1130-1143, CRYPTOMEM disabled):
clear the session (including the PIN cache), generate a fresh uuid (the
random bytes are the `newUuid` argument), commit with `update = false`
(writing magic and uuid and zero-filling the record region), and erase the
PIN/U2F sector. -/
def storage_wipe (cu : List Nat → StorageHDNode) (newUuid : List Nat)
    (d : DeviceState) : DeviceState :=
  let sess1 := session_clear true d.sess
  let c := storage_commit_locked cu false d.rom d.upd sess1
  storage_clearPinArea
    { d with sess := c.2.2, uuid := newUuid, magic := storage_magic,
             rom := c.1, upd := c.2.1 }

/-- Return value of `storage_from_flash()` (storage.c lines 137-239, with
`SUPPORT_LEGACY_VERSION`): false exactly on a magic mismatch (line 140) or a
version downgrade (line 155); on every other path the migration runs and the
function returns true. -/
def storage_from_flash_result (d : DeviceState) : Bool :=
  if d.magic ≠ storage_magic then false
  else if d.rom.version > STORAGE_VERSION then false
  else true

/-- `storage_init()` (storage.c lines 241-249, CRYPTOMEM disabled):
`storage_from_flash` first clears the staged update; when it fails the
device is wiped.  The successful path (migration and version rewrite) is
abstracted by the `migrate` argument. -/
def storage_init (cu : List Nat → StorageHDNode)
    (migrate : DeviceState → DeviceState) (newUuid : List Nat)
    (d : DeviceState) : DeviceState :=
  let d1 := { d with upd := emptyStorage }
  if storage_from_flash_result d1 then migrate d1
  else storage_wipe cu newUuid d1

/-- `storage_area_recycle(new_pinfails)` (storage.c lines 977-999): clear the
storage magic, erase the PIN/U2F sector, program `new_pinfails` at the first
PIN-area word, fold `storage_u2f_offset` into the staged update's
`u2f_counter`, and commit the storage record (which rewrites the magic). -/
def storage_area_recycle (cu : List Nat → StorageHDNode) (new_pinfails : Nat)
    (d : DeviceState) : DeviceState :=
  let d2 : DeviceState :=
    { d with magic := 0,
             pinArea := freshPinArea.set 0 new_pinfails,
             u2fArea := freshU2FArea }
  let upd2 : Storage :=
    { d2.upd with has_u2f_counter := true,
                  u2f_counter := (d2.upd.u2f_counter + d2.u2fOffset) % 4294967296 }
  let c := storage_commit_locked cu true d2.rom upd2 d2.sess
  { d2 with magic := storage_magic, rom := c.1, upd := c.2.1, sess := c.2.2,
            u2fOffset := 0, recycles := d2.recycles + 1 }

/-- `storage_nextU2FCounter()` (storage.c lines 1106-1122): program the next
zero bit of the U2F area (word `u2f_offset / 32`, value
`0xfffffffe << (u2f_offset & 31)`), increment `storage_u2f_offset`, recycle
the sector when the area is exhausted (passing the current PIN-failure word
as `new_pinfails`), and return `storageRom->u2f_counter + storage_u2f_offset`. -/
def storage_nextU2FCounter (cu : List Nat → StorageHDNode) (d : DeviceState) :
    Nat × DeviceState :=
  let idx := d.u2fOffset / 32
  let newval := (4294967294 <<< (d.u2fOffset % 32)) % 4294967296
  let d1 : DeviceState :=
    { d with u2fArea := d.u2fArea.set idx newval, u2fOffset := d.u2fOffset + 1 }
  let d2 :=
    if d1.u2fOffset ≥ U2F_BITS then
      storage_area_recycle cu (pinWord d1.pinArea (storage_getPinFailsOffset d1.pinArea)) d1
    else d1
  ((d2.rom.u2f_counter + d2.u2fOffset) % 4294967296, d2)

/-- `n` consecutive `storage_nextU2FCounter` calls. -/
def runU2F (cu : List Nat → StorageHDNode) : Nat → DeviceState → DeviceState
  | 0, d => d
  | n + 1, d => runU2F cu n (storage_nextU2FCounter cu d).2

/-- A freshly wiped device: valid magic, empty record, no staged update,
erased counter areas, zero U2F offset, boot-clean session. -/
def freshDevice : DeviceState :=
  { magic := storage_magic, uuid := List.replicate 12 0,
    rom := emptyStorage, upd := emptyStorage,
    pinArea := freshPinArea, u2fArea := freshU2FArea, u2fOffset := 0,
    sess := emptySession, recycles := 0 }

/-! ### General lemmas about the U2F counter machine -/

/-- A `storage_nextU2FCounter` call that does not exhaust the area: the
return value is the incremented effective counter and only the U2F area and
offset change. -/
theorem nextU2F_no_recycle (cu : List Nat → StorageHDNode) (d : DeviceState)
    (h : d.u2fOffset + 1 < U2F_BITS) :
    storage_nextU2FCounter cu d =
      ((d.rom.u2f_counter + (d.u2fOffset + 1)) % 4294967296,
       { d with
           u2fArea := d.u2fArea.set (d.u2fOffset / 32)
             ((4294967294 <<< (d.u2fOffset % 32)) % 4294967296),
           u2fOffset := d.u2fOffset + 1 }) := by
  have hc : ¬ (d.u2fOffset + 1 ≥ U2F_BITS) := by omega
  simp [storage_nextU2FCounter, hc]

/-- A `storage_nextU2FCounter` call that exhausts the area, from a state with
a clean staged update: the recycle commits `0 + U2F_BITS = 2048` as the new
`rom.u2f_counter` regardless of the previous `rom.u2f_counter`, and the call
returns 2048. -/
theorem nextU2F_recycle (cu : List Nat → StorageHDNode) (d : DeviceState)
    (hoff : d.u2fOffset + 1 = U2F_BITS) (hupd : d.upd = emptyStorage)
    (hn : d.rom.has_node = false) (hm : d.rom.has_mnemonic = false) :
    (storage_nextU2FCounter cu d).1 = 2048 ∧
    (storage_nextU2FCounter cu d).2.rom.u2f_counter = 2048 ∧
    (storage_nextU2FCounter cu d).2.rom.has_node = false ∧
    (storage_nextU2FCounter cu d).2.rom.has_mnemonic = false ∧
    (storage_nextU2FCounter cu d).2.upd = emptyStorage ∧
    (storage_nextU2FCounter cu d).2.u2fOffset = 0 ∧
    (storage_nextU2FCounter cu d).2.recycles = d.recycles + 1 := by
  have hc : d.u2fOffset + 1 ≥ U2F_BITS := by omega
  simp [storage_nextU2FCounter, storage_area_recycle, storage_commit_locked,
        mergeStorage, hc, hupd, hoff, hn, hm, emptyStorage, U2F_BITS]

/-- Running `n` calls none of which exhausts the area only advances the
offset (and rewrites the U2F area): every other component is unchanged. -/
theorem runU2F_no_recycle (cu : List Nat → StorageHDNode) (n : Nat) :
    ∀ d : DeviceState, d.u2fOffset + n < U2F_BITS →
      (runU2F cu n d).u2fOffset = d.u2fOffset + n ∧
      (runU2F cu n d).rom = d.rom ∧
      (runU2F cu n d).upd = d.upd ∧
      (runU2F cu n d).pinArea = d.pinArea ∧
      (runU2F cu n d).sess = d.sess ∧
      (runU2F cu n d).magic = d.magic ∧
      (runU2F cu n d).uuid = d.uuid ∧
      (runU2F cu n d).recycles = d.recycles := by
  induction n with
  | zero => intro d h; simp [runU2F]
  | succ n ih =>
    intro d h
    have h1 : d.u2fOffset + 1 < U2F_BITS := by omega
    have hstep := nextU2F_no_recycle cu d h1
    have hrun : runU2F cu (n + 1) d = runU2F cu n (storage_nextU2FCounter cu d).2 := rfl
    rw [hrun, hstep]
    have := ih
      { d with
          u2fArea := d.u2fArea.set (d.u2fOffset / 32)
            ((4294967294 <<< (d.u2fOffset % 32)) % 4294967296),
          u2fOffset := d.u2fOffset + 1 }
      (by simp; omega)
    simp at this
    simp [this]
    omega

/-- Unfolding a run of `n + 1` calls from the right: the last call is applied
to the state after the first `n`. -/
theorem runU2F_succ_right (cu : List Nat → StorageHDNode) (n : Nat) :
    ∀ d : DeviceState,
      runU2F cu (n + 1) d = (storage_nextU2FCounter cu (runU2F cu n d)).2 := by
  induction n with
  | zero => intro d; rfl
  | succ n ih =>
    intro d
    have h1 : runU2F cu (n + 1 + 1) d
        = runU2F cu (n + 1) (storage_nextU2FCounter cu d).2 := rfl
    rw [h1, ih]
    rfl

/-- Splitting a run of `m + n` calls. -/
theorem runU2F_add (cu : List Nat → StorageHDNode) (m : Nat) :
    ∀ (n : Nat) (d : DeviceState),
      runU2F cu (m + n) d = runU2F cu n (runU2F cu m d) := by
  induction m with
  | zero => intro n d; simp [runU2F]
  | succ m ih =>
    intro n d
    have h1 : runU2F cu (m + 1 + n) d
        = runU2F cu (m + n) (storage_nextU2FCounter cu d).2 := by
      have : m + 1 + n = (m + n) + 1 := by omega
      rw [this]
      rfl
    rw [h1, ih]
    rfl

/-- State after the first 2048 `storage_nextU2FCounter` calls on a fresh
device: the 2048th call exhausted the area and recycled, committing
`rom.u2f_counter = 2048` and resetting the offset. -/
theorem runU2F_2048_fresh (cu : List Nat → StorageHDNode) :
    (runU2F cu 2048 freshDevice).rom.u2f_counter = 2048 ∧
    (runU2F cu 2048 freshDevice).rom.has_node = false ∧
    (runU2F cu 2048 freshDevice).rom.has_mnemonic = false ∧
    (runU2F cu 2048 freshDevice).upd = emptyStorage ∧
    (runU2F cu 2048 freshDevice).u2fOffset = 0 ∧
    (runU2F cu 2048 freshDevice).recycles = 1 ∧
    (storage_nextU2FCounter cu (runU2F cu 2047 freshDevice)).1 = 2048 := by
  obtain ⟨ho47, hrom47, hupd47, -, -, -, -, hrec47⟩ :=
    runU2F_no_recycle cu 2047 freshDevice (by simp [freshDevice, U2F_BITS])
  have hrecy := nextU2F_recycle cu (runU2F cu 2047 freshDevice)
    (by rw [ho47]; simp [freshDevice, U2F_BITS])
    (by rw [hupd47]; simp [freshDevice])
    (by rw [hrom47]; simp [freshDevice, emptyStorage])
    (by rw [hrom47]; simp [freshDevice, emptyStorage])
  have e1 : runU2F cu 2048 freshDevice
      = (storage_nextU2FCounter cu (runU2F cu 2047 freshDevice)).2 := by
    have : (2048 : Nat) = 2047 + 1 := rfl
    rw [this, runU2F_succ_right]
  rw [e1]
  refine ⟨hrecy.2.1, hrecy.2.2.1, hrecy.2.2.2.1, hrecy.2.2.2.2.1,
          hrecy.2.2.2.2.2.1, ?_, hrecy.1⟩
  rw [hrecy.2.2.2.2.2.2, hrec47]
  simp [freshDevice]

/-- C3: the sequence returned by `storage_nextU2FCounter` is NOT strictly
increasing across sector recycles.  On a fresh device the 2048th call (first
recycle) returns 2048; calls then climb to 4095 at the 4095th call; but the
4096th call (second recycle) returns 2048 again, because
`storage_area_recycle` folds `storage_u2f_offset` into the freshly cleared
staged update (`storageUpdate.u2f_counter += storage_u2f_offset` on a zeroed
field) instead of adding it to `storageRom->u2f_counter`, and the commit then
overwrites `rom.u2f_counter` with that value.  The effective counter
`rom.u2f_counter + u2f_offset` thus falls from 4095 to 2048, repeating
already-returned values. -/
theorem storage_nextU2FCounter_not_monotonic (cu : List Nat → StorageHDNode) :
    (storage_nextU2FCounter cu (runU2F cu 2047 freshDevice)).1 = 2048 ∧
    (storage_nextU2FCounter cu (runU2F cu 4094 freshDevice)).1 = 4095 ∧
    (storage_nextU2FCounter cu (runU2F cu 4095 freshDevice)).1 = 2048 ∧
    (storage_nextU2FCounter cu (runU2F cu 4095 freshDevice)).2.rom.u2f_counter = 2048 := by
  obtain ⟨hctr, hn, hm, hupd, hoff, hrec, hret2048⟩ := runU2F_2048_fresh cu
  -- the 4095th call: 2046 further increments after the first recycle
  have e1 : runU2F cu 4094 freshDevice
      = runU2F cu 2046 (runU2F cu 2048 freshDevice) := by
    have : (4094 : Nat) = 2048 + 2046 := rfl
    rw [this, runU2F_add]
  obtain ⟨ho46, hrom46, hupd46, -, -, -, -, -⟩ :=
    runU2F_no_recycle cu 2046 (runU2F cu 2048 freshDevice)
      (by rw [hoff]; simp [U2F_BITS])
  have hcall4095 := nextU2F_no_recycle cu (runU2F cu 4094 freshDevice)
    (by rw [e1, ho46, hoff]; simp [U2F_BITS])
  -- the 4096th call: the second recycle
  have e2 : runU2F cu 4095 freshDevice
      = runU2F cu 2047 (runU2F cu 2048 freshDevice) := by
    have : (4095 : Nat) = 2048 + 2047 := rfl
    rw [this, runU2F_add]
  obtain ⟨ho47, hrom47, hupd47, -, -, -, -, -⟩ :=
    runU2F_no_recycle cu 2047 (runU2F cu 2048 freshDevice)
      (by rw [hoff]; simp [U2F_BITS])
  have hcall4096 := nextU2F_recycle cu (runU2F cu 4095 freshDevice)
    (by rw [e2, ho47, hoff]; simp [U2F_BITS])
    (by rw [e2, hupd47, hupd])
    (by rw [e2, hrom47, hn])
    (by rw [e2, hrom47, hm])
  refine ⟨hret2048, ?_, hcall4096.1, hcall4096.2.1⟩
  rw [hcall4095]
  simp only []
  rw [e1, ho46, hrom46, hoff, hctr]

/-- C4 counterexample: the claim "issuing storage_nextU2FCounter 2048 times
does not trigger a sector recycle; the 2049th call triggers the recycle" is
false: after 2048 calls on a fresh device one recycle has already happened,
and the 2049th call does not add another. -/
theorem u2f_recycle_count_after_2048_calls :
    (runU2F trivialCu 2048 freshDevice).recycles = 1 ∧
    (runU2F trivialCu 2049 freshDevice).recycles = 1 := by
  obtain ⟨hctr, hn, hm, hupd, hoff, hrec, hret⟩ := runU2F_2048_fresh trivialCu
  refine ⟨hrec, ?_⟩
  have e1 : runU2F trivialCu 2049 freshDevice
      = runU2F trivialCu 1 (runU2F trivialCu 2048 freshDevice) := by
    have : (2049 : Nat) = 2048 + 1 := rfl
    rw [this, runU2F_add]
  obtain ⟨-, -, -, -, -, -, -, hrec1⟩ :=
    runU2F_no_recycle trivialCu 1 (runU2F trivialCu 2048 freshDevice)
      (by rw [hoff]; simp [U2F_BITS])
  rw [e1, hrec1, hrec]

/-- C4 (amended): on a fresh device the first 2047 calls trigger no recycle;
the 2048th call triggers the recycle, returns 2048 and leaves
`rom.u2f_counter = 2048`; the 2049th call returns 2049. -/
theorem u2f_first_recycle_at_2048 (cu : List Nat → StorageHDNode) :
    (runU2F cu 2047 freshDevice).recycles = 0 ∧
    (storage_nextU2FCounter cu (runU2F cu 2047 freshDevice)).1 = 2048 ∧
    (runU2F cu 2048 freshDevice).recycles = 1 ∧
    (runU2F cu 2048 freshDevice).rom.u2f_counter = 2048 ∧
    (storage_nextU2FCounter cu (runU2F cu 2048 freshDevice)).1 = 2049 := by
  obtain ⟨hctr, hn, hm, hupd, hoff, hrec, hret⟩ := runU2F_2048_fresh cu
  obtain ⟨-, -, -, -, -, -, -, hrec47⟩ :=
    runU2F_no_recycle cu 2047 freshDevice (by simp [freshDevice, U2F_BITS])
  have hcall2049 := nextU2F_no_recycle cu (runU2F cu 2048 freshDevice)
    (by rw [hoff]; simp [U2F_BITS])
  refine ⟨by rw [hrec47]; simp [freshDevice], hret, hrec, hctr, ?_⟩
  rw [hcall2049]
  simp only []
  rw [hoff, hctr]

/-- C2: evaluation of the code at the failing input.  With committed
`rom.flags = 1` and an empty staged update, `storage_applyFlags(2)` followed
by a commit leaves `rom.flags = 2`: the previously committed bit 0 has been
cleared without a wipe, because `storage_applyFlags` ORs the new bits into
the zeroed staged update (`storageUpdate.flags |= flags`) instead of into a
copy of the rom flags, and the commit then takes the staged value as is.
The claimed result would be `1 ||| 2 = 3`.  The no-op case of the claim does
hold: applying already-present bits leaves the staged update untouched. -/
theorem storage_applyFlags_drops_committed_bit (cu : List Nat → StorageHDNode) :
    (storage_commit_locked cu true { emptyStorage with has_flags := true, flags := 1 }
      (storage_applyFlags 2 { emptyStorage with has_flags := true, flags := 1 } emptyStorage)
      emptySession).1.flags = 2 ∧
    ({ emptyStorage with has_flags := true, flags := 1 } : Storage).flags ||| 2 = 3 ∧
    storage_applyFlags 1 { emptyStorage with has_flags := true, flags := 1 } emptyStorage
      = emptyStorage := by
  refine ⟨?_, by decide, ?_⟩
  · simp [storage_commit_locked, storage_applyFlags, mergeStorage, emptyStorage]
  · simp [storage_applyFlags]

/-- C10: `storage_needsBackup` consults the staged update first — an
uncommitted `storage_setNeedsBackup` is immediately observable — and falls
back to the committed rom value only when nothing is staged.  (By contrast,
`storage_getFlags` is a function of the rom record alone.) -/
theorem storage_needsBackup_reads_staged_update_first (rom upd : Storage)
    (b nb : Bool) :
    storage_needsBackup rom (storage_setNeedsBackup b upd) = b ∧
    (storage_setNeedsBackup b upd).has_needs_backup = true ∧
    storage_needsBackup rom { upd with has_needs_backup := false }
      = (rom.has_needs_backup && rom.needs_backup) ∧
    storage_needsBackup rom { upd with has_needs_backup := true, needs_backup := nb }
      = nb := by
  refine ⟨?_, ?_, ?_, ?_⟩ <;> simp [storage_needsBackup, storage_setNeedsBackup]

/-! ### General lemmas about the PIN-failure counter -/

/-- After `k ≤ 31` failed attempts on a fresh area the current word is
`0xffffffff` shifted left `k` times, i.e. `2^32 - 2^k`, and it is still the
first word of the area. -/
theorem pinFailsIter_fresh (k : Nat) (hk : k ≤ 31) :
    pinFailsIter k freshPinArea
      = (4294967296 - 2 ^ k) :: List.replicate 1023 FLASH_ERASED_WORD := by
  induction k with
  | zero =>
    show freshPinArea = _
    unfold freshPinArea PINAREA_WORDS FLASH_ERASED_WORD
    rw [show (1024 : Nat) = 1023 + 1 from rfl, List.replicate_succ]
    norm_num
  | succ k ih =>
    have hkk : k ≤ 30 := by omega
    have h2k : 2 ^ k ≤ 2 ^ 30 := Nat.pow_le_pow_right (by omega) hkk
    have h1 : 1 ≤ 2 ^ k := Nat.one_le_two_pow
    have hstep : pinFailsIter (k + 1) freshPinArea
        = (storage_increasePinFails (pinFailsIter k freshPinArea)
            (storage_getPinFailsOffset (pinFailsIter k freshPinArea))).2 := rfl
    rw [hstep, ih (by omega)]
    have hw0 : 4294967296 - 2 ^ k ≠ 0 := by omega
    have hoff : storage_getPinFailsOffset
        ((4294967296 - 2 ^ k) :: List.replicate 1023 FLASH_ERASED_WORD) = 0 := by
      simp [storage_getPinFailsOffset, pinFailsOffsetAux, hw0]
    rw [hoff]
    have hnew : ((4294967296 - 2 ^ k) <<< 1) % 4294967296 = 4294967296 - 2 ^ (k + 1) := by
      rw [Nat.shiftLeft_eq, pow_one, pow_succ]
      omega
    simp only [storage_increasePinFails, pinWord, List.getD_cons_zero, hnew]
    rw [if_neg (by rw [pow_succ]; omega)]
    simp [List.set_cons_zero]

/-- C5: PIN-wait encoding.  After `k < 32` consecutive
`storage_increasePinFails` calls on a fresh area, `storage_getPinWait` at the
current word returns `2^k - 1` seconds; a saturated word (left shift yields
zero) makes `storage_increasePinFails` return true without writing; after
`storage_resetPinFails` the current word advances to the next word and the
wait is back to 0. -/
theorem storage_pin_wait_encoding (k : Nat) (hk : k < 32) :
    storage_getPinWait (pinFailsIter k freshPinArea)
        (storage_getPinFailsOffset (pinFailsIter k freshPinArea)) = 2 ^ k - 1 ∧
    (∀ (area : List Nat) (i : Nat), (pinWord area i <<< 1) % 4294967296 = 0 →
        storage_increasePinFails area i = (true, area)) ∧
    storage_getPinFailsOffset
        (storage_resetPinFails (pinFailsIter k freshPinArea)
          (storage_getPinFailsOffset (pinFailsIter k freshPinArea)))
      = storage_getPinFailsOffset (pinFailsIter k freshPinArea) + 1 ∧
    storage_getPinWait
        (storage_resetPinFails (pinFailsIter k freshPinArea)
          (storage_getPinFailsOffset (pinFailsIter k freshPinArea)))
        (storage_getPinFailsOffset
          (storage_resetPinFails (pinFailsIter k freshPinArea)
            (storage_getPinFailsOffset (pinFailsIter k freshPinArea)))) = 0 := by
  have h2k : 2 ^ k ≤ 2 ^ 31 := Nat.pow_le_pow_right (by omega) (by omega)
  have h1 : 1 ≤ 2 ^ k := Nat.one_le_two_pow
  have hiter := pinFailsIter_fresh k (by omega)
  have hw0 : 4294967296 - 2 ^ k ≠ 0 := by omega
  have hoff : storage_getPinFailsOffset (pinFailsIter k freshPinArea) = 0 := by
    rw [hiter]
    simp [storage_getPinFailsOffset, pinFailsOffsetAux, hw0]
  have hreset : storage_resetPinFails (pinFailsIter k freshPinArea) 0
      = 0 :: List.replicate 1023 FLASH_ERASED_WORD := by
    rw [hiter]
    simp [storage_resetPinFails, PINAREA_WORDS, List.set_cons_zero]
  have hoff2 : storage_getPinFailsOffset (0 :: List.replicate 1023 FLASH_ERASED_WORD) = 1 := by
    rw [show (1023 : Nat) = 1022 + 1 from rfl, List.replicate_succ]
    simp [storage_getPinFailsOffset, pinFailsOffsetAux, FLASH_ERASED_WORD]
  refine ⟨?_, ?_, ?_, ?_⟩
  · rw [hoff, hiter]
    simp only [storage_getPinWait, pinWord, List.getD_cons_zero, FLASH_ERASED_WORD]
    omega
  · intro area i h
    simp [storage_increasePinFails, h]
  · rw [hoff, hreset, hoff2]
  · rw [hoff, hreset, hoff2]
    rw [show (1023 : Nat) = 1022 + 1 from rfl, List.replicate_succ]
    have hp : pinWord (0 :: FLASH_ERASED_WORD :: List.replicate 1022 FLASH_ERASED_WORD) 1
        = FLASH_ERASED_WORD := rfl
    simp only [storage_getPinWait, hp]
    omega

/-- C5 witness: after 4 failed attempts the wait is 15 seconds. -/
theorem storage_pin_wait_encoding_witness :
    storage_getPinWait (pinFailsIter 4 freshPinArea)
      (storage_getPinFailsOffset (pinFailsIter 4 freshPinArea)) = 15 := by
  have h := storage_pin_wait_encoding 4 (by decide)
  simpa using h.1

/-! ### General lemmas about the constant-time comparators -/

/-- An OR-accumulator is zero only if every accumulated value was zero. -/
theorem lor_eq_zero_iff (a b : Nat) : a ||| b = 0 ↔ a = 0 ∧ b = 0 := by
  constructor
  · intro h
    constructor
    · apply Nat.zero_of_testBit_eq_false
      intro i
      have ht := congrArg (fun x => Nat.testBit x i) h
      simp only [Nat.testBit_lor, Nat.zero_testBit, Bool.or_eq_false_iff] at ht
      exact ht.1
    · apply Nat.zero_of_testBit_eq_false
      intro i
      have ht := congrArg (fun x => Nat.testBit x i) h
      simp only [Nat.testBit_lor, Nat.zero_testBit, Bool.or_eq_false_iff] at ht
      exact ht.2
  · rintro ⟨rfl, rfl⟩
    rfl

/-- The 8-bit wrap-around difference of two bytes is zero exactly on equal
bytes. -/
theorem ctDiffByte_eq_zero_iff (a b : Nat) (ha : a < 256) (hb : b < 256) :
    ctDiffByte a b = 0 ↔ a = b := by
  unfold ctDiffByte
  omega

/-- The accumulated difference over the candidate plus the sentinel byte is
zero exactly when the candidate equals the stored string (both being byte
strings without NUL bytes). -/
theorem ctAcc_eq_zero_iff (cand : List Nat) :
    ∀ s : List Nat, (∀ x ∈ s, 0 < x ∧ x < 256) → (∀ x ∈ cand, 0 < x ∧ x < 256) →
      (ctAcc s cand = 0 ↔ cand = s) := by
  induction cand with
  | nil =>
    intro s hs _
    cases s with
    | nil => simp [ctAcc]
    | cons a as =>
      have ha := hs a (by simp)
      simp only [ctAcc, List.getD_cons_zero]
      constructor
      · intro h
        omega
      · intro h
        exact absurd h (by simp)
  | cons c cs ih =>
    intro s hs hc
    have hcc := hc c (by simp)
    have hcs : ∀ x ∈ cs, 0 < x ∧ x < 256 := fun x hx => hc x (by simp [hx])
    cases s with
    | nil =>
      simp only [ctAcc, List.getD_nil, List.drop_nil]
      rw [lor_eq_zero_iff]
      have hnz : ctDiffByte 0 c ≠ 0 := by
        unfold ctDiffByte
        omega
      simp [hnz]
    | cons a as =>
      have ha := hs a (by simp)
      have has : ∀ x ∈ as, 0 < x ∧ x < 256 := fun x hx => hs x (by simp [hx])
      simp only [ctAcc, List.getD_cons_zero, List.drop_one, List.tail_cons]
      rw [lor_eq_zero_iff, ctDiffByte_eq_zero_iff a c ha.2 hcc.2, ih as has hcs]
      constructor
      · rintro ⟨h1, h2⟩
        rw [h1, h2]
      · intro h
        injection h with h1 h2
        exact ⟨h1.symm, h2⟩

/-- C8: `storage_containsMnemonic` and the on-MCU `storage_containsPin`
accept a NUL-terminated candidate exactly when it equals the stored string:
the OR-accumulated byte differences over the candidate plus the sentinel
byte of the stored buffer vanish only on full equality, so neither a proper
prefix nor an extension of the stored secret is accepted. -/
theorem storage_contains_exact_equality (rom : Storage) (candM candP : List Nat)
    (hm : ∀ x ∈ rom.mnemonic, 0 < x ∧ x < 256)
    (hp : ∀ x ∈ rom.pin, 0 < x ∧ x < 256)
    (hcm : ∀ x ∈ candM, 0 < x ∧ x < 256)
    (hcp : ∀ x ∈ candP, 0 < x ∧ x < 256) :
    (storage_containsMnemonic rom candM = true ↔ candM = rom.mnemonic) ∧
    (storage_containsPin rom candP = true ↔ candP = rom.pin) := by
  constructor
  · rw [show storage_containsMnemonic rom candM = decide (ctAcc rom.mnemonic candM = 0) from rfl]
    rw [decide_eq_true_iff]
    exact ctAcc_eq_zero_iff candM rom.mnemonic hm hcm
  · rw [show storage_containsPin rom candP = decide (ctAcc rom.pin candP = 0) from rfl]
    rw [decide_eq_true_iff]
    exact ctAcc_eq_zero_iff candP rom.pin hp hcp

/-- C8 witness: for a stored mnemonic "abc" and PIN "12", the exact strings
are accepted while a proper prefix of the mnemonic and an extension of the
PIN are rejected. -/
theorem storage_contains_exact_equality_witness :
    storage_containsMnemonic
      { emptyStorage with mnemonic := [97, 98, 99], pin := [49, 50] } [97, 98, 99] = true ∧
    ¬ (storage_containsMnemonic
      { emptyStorage with mnemonic := [97, 98, 99], pin := [49, 50] } [97, 98] = true) ∧
    storage_containsPin
      { emptyStorage with mnemonic := [97, 98, 99], pin := [49, 50] } [49, 50] = true ∧
    ¬ (storage_containsPin
      { emptyStorage with mnemonic := [97, 98, 99], pin := [49, 50] } [49, 50, 51] = true) := by
  have h1 := storage_contains_exact_equality
    { emptyStorage with mnemonic := [97, 98, 99], pin := [49, 50] } [97, 98, 99] [49, 50]
    (by decide) (by decide) (by decide) (by decide)
  have h2 := storage_contains_exact_equality
    { emptyStorage with mnemonic := [97, 98, 99], pin := [49, 50] } [97, 98] [49, 50, 51]
    (by decide) (by decide) (by decide) (by decide)
  refine ⟨h1.1.mpr rfl, fun hco => ?_, h1.2.mpr rfl, fun hco => ?_⟩
  · have := h2.1.mp hco
    simp at this
  · have := h2.2.mp hco
    simp at this

/-- C6: commit frame preservation.  When neither `has_node` nor
`has_mnemonic` is staged, the committed record carries `node`, `mnemonic`
and `u2froot` (presence bits and values) from rom as a unit; and every other
optional field whose presence bit is not staged is carried forward from rom
unchanged.  The length bounds are the buffer-capacity invariants of the
stored strings (mnemonic 241, pin 10, language 17, label 33, all
NUL-terminated). -/
theorem storage_commit_frame_preservation (cu : List Nat → StorageHDNode)
    (rom upd : Storage) (sess : SessionState)
    (hn : upd.has_node = false) (hm : upd.has_mnemonic = false)
    (hlm : rom.mnemonic.length ≤ 240) (hlp : rom.pin.length ≤ 9)
    (hll : rom.language.length ≤ 16) (hlb : rom.label.length ≤ 32) :
    (storage_commit_locked cu true rom upd sess).1 = mergeStorage cu rom upd ∧
    (mergeStorage cu rom upd).has_node = rom.has_node ∧
    (mergeStorage cu rom upd).node = rom.node ∧
    (mergeStorage cu rom upd).has_mnemonic = rom.has_mnemonic ∧
    (mergeStorage cu rom upd).mnemonic = rom.mnemonic ∧
    (mergeStorage cu rom upd).has_u2froot = rom.has_u2froot ∧
    (mergeStorage cu rom upd).u2froot = rom.u2froot ∧
    (upd.has_passphrase_protection = false →
      (mergeStorage cu rom upd).has_passphrase_protection = rom.has_passphrase_protection ∧
      (mergeStorage cu rom upd).passphrase_protection = rom.passphrase_protection) ∧
    (upd.has_pin = false →
      (mergeStorage cu rom upd).has_pin = rom.has_pin ∧
      (mergeStorage cu rom upd).pin = rom.pin) ∧
    (upd.has_language = false →
      (mergeStorage cu rom upd).has_language = rom.has_language ∧
      (mergeStorage cu rom upd).language = rom.language) ∧
    (upd.has_label = false →
      (mergeStorage cu rom upd).has_label = rom.has_label ∧
      (mergeStorage cu rom upd).label = rom.label) ∧
    (upd.has_imported = false →
      (mergeStorage cu rom upd).has_imported = rom.has_imported ∧
      (mergeStorage cu rom upd).imported = rom.imported) ∧
    (upd.has_homescreen = false →
      (mergeStorage cu rom upd).has_homescreen = rom.has_homescreen ∧
      (mergeStorage cu rom upd).homescreen_size = rom.homescreen_size ∧
      (mergeStorage cu rom upd).homescreen_bytes = rom.homescreen_bytes) ∧
    (upd.has_u2f_counter = false →
      (mergeStorage cu rom upd).has_u2f_counter = rom.has_u2f_counter ∧
      (mergeStorage cu rom upd).u2f_counter = rom.u2f_counter) ∧
    (upd.has_needs_backup = false →
      (mergeStorage cu rom upd).has_needs_backup = rom.has_needs_backup ∧
      (mergeStorage cu rom upd).needs_backup = rom.needs_backup) ∧
    (upd.has_flags = false →
      (mergeStorage cu rom upd).has_flags = rom.has_flags ∧
      (mergeStorage cu rom upd).flags = rom.flags) := by
  refine ⟨by simp [storage_commit_locked], ?_, ?_, ?_, ?_, ?_, ?_, ?_, ?_, ?_, ?_, ?_, ?_, ?_, ?_, ?_⟩
  · simp [mergeStorage, hn, hm]
  · simp [mergeStorage, hn, hm]
  · simp [mergeStorage, hn, hm]
  · simp [mergeStorage, hn, hm, List.take_of_length_le hlm]
  · simp [mergeStorage, hn, hm]
  · simp [mergeStorage, hn, hm]
  · intro h
    simp [mergeStorage, h]
  · intro h
    simp [mergeStorage, h, List.take_of_length_le hlp]
  · intro h
    simp [mergeStorage, h, List.take_of_length_le hll]
  · intro h
    simp [mergeStorage, h, List.take_of_length_le hlb]
  · intro h
    simp [mergeStorage, h]
  · intro h
    simp [mergeStorage, h]
  · intro h
    simp [mergeStorage, h]
  · intro h
    simp [mergeStorage, h]
  · intro h
    simp [mergeStorage, h]

/-- C6 witness: a concrete rom with every optional field present and an
update staging only a label change carries everything else unchanged. -/
theorem storage_commit_frame_preservation_witness :
    ((storage_commit_locked trivialCu true
        { emptyStorage with has_mnemonic := true, mnemonic := [97, 98],
                            has_pin := true, pin := [49],
                            has_flags := true, flags := 5,
                            has_u2froot := true }
        { emptyStorage with has_label := true, label := [76] }
        emptySession).1).mnemonic = [97, 98] ∧
    ((storage_commit_locked trivialCu true
        { emptyStorage with has_mnemonic := true, mnemonic := [97, 98],
                            has_pin := true, pin := [49],
                            has_flags := true, flags := 5,
                            has_u2froot := true }
        { emptyStorage with has_label := true, label := [76] }
        emptySession).1).has_mnemonic = true ∧
    ((storage_commit_locked trivialCu true
        { emptyStorage with has_mnemonic := true, mnemonic := [97, 98],
                            has_pin := true, pin := [49],
                            has_flags := true, flags := 5,
                            has_u2froot := true }
        { emptyStorage with has_label := true, label := [76] }
        emptySession).1).pin = [49] ∧
    ((storage_commit_locked trivialCu true
        { emptyStorage with has_mnemonic := true, mnemonic := [97, 98],
                            has_pin := true, pin := [49],
                            has_flags := true, flags := 5,
                            has_u2froot := true }
        { emptyStorage with has_label := true, label := [76] }
        emptySession).1).flags = 5 := by
  have h := storage_commit_frame_preservation trivialCu
    { emptyStorage with has_mnemonic := true, mnemonic := [97, 98],
                        has_pin := true, pin := [49],
                        has_flags := true, flags := 5,
                        has_u2froot := true }
    { emptyStorage with has_label := true, label := [76] }
    emptySession
    (by decide) (by decide) (by decide) (by decide) (by decide) (by decide)
  refine ⟨?_, ?_, ?_, ?_⟩
  · rw [h.1]
    exact h.2.2.2.2.1
  · rw [h.1]
    exact h.2.2.2.1
  · rw [h.1]
    exact (h.2.2.2.2.2.2.2.2.1 rfl).2
  · rw [h.1]
    exact (h.2.2.2.2.2.2.2.2.2.2.2.2.2.2.2 rfl).2

/-- C7 counterexample: with a cached seed `64 × 0x01` and cached passphrase
"b", `storage_setPassphraseProtection(true)` followed by a commit leaves the
previous seed bytes in the session buffer (only the cache flags are
dropped); and `storage_setPin("1")` followed by a commit does not invalidate
the seed cache at all, so a later `storage_getSeed(false)` returns the stale
cached seed (`64 × 0x01`) instead of the freshly derived one (`64 × 0x02`
under the instantiated `mnemonic_to_seed`).  This refutes both the
zeroization and, for `setPin`, the recomputation asserted by the claim. -/
theorem session_secrets_not_zeroized_cex :
    ((storage_commit_locked trivialCu true
        { emptyStorage with has_mnemonic := true, mnemonic := [97] }
        (storage_setPassphraseProtection true emptyStorage
          ⟨true, false, List.replicate 64 1, true, true, [98]⟩).1
        (storage_setPassphraseProtection true emptyStorage
          ⟨true, false, List.replicate 64 1, true, true, [98]⟩).2).2.2.seed
      = List.replicate 64 1) ∧
    (List.replicate 64 1 ≠ List.replicate 64 (0 : Nat)) ∧
    ((storage_commit_locked trivialCu true
        { emptyStorage with has_mnemonic := true, mnemonic := [97] }
        (storage_setPin [49] emptyStorage
          ⟨true, false, List.replicate 64 1, true, true, [98]⟩).1
        (storage_setPin [49] emptyStorage
          ⟨true, false, List.replicate 64 1, true, true, [98]⟩).2).2.2.seedCached
      = true) ∧
    ((storage_getSeed (fun _ _ => List.replicate 64 2) (fun _ => true)
        (fun s => (true, s))
        { emptyStorage with has_mnemonic := true, mnemonic := [97] }
        (storage_commit_locked trivialCu true
          { emptyStorage with has_mnemonic := true, mnemonic := [97] }
          (storage_setPin [49] emptyStorage
            ⟨true, false, List.replicate 64 1, true, true, [98]⟩).1
          (storage_setPin [49] emptyStorage
            ⟨true, false, List.replicate 64 1, true, true, [98]⟩).2).2.2 false).1
      = some (List.replicate 64 1)) ∧
    (List.replicate 64 1 ≠ List.replicate 64 (2 : Nat)) := by
  refine ⟨?_, by decide, ?_, ?_, by decide⟩
  · simp [storage_commit_locked, commitSession, storage_setPassphraseProtection,
          emptyStorage, session_clear]
  · simp [storage_commit_locked, commitSession, storage_setPin, emptyStorage]
  · simp [storage_commit_locked, commitSession, storage_setPin, emptyStorage,
          storage_getSeed]

/-- C7 (amended): after `storage_setPassphraseProtection` and the subsequent
commit the seed and passphrase caches are invalidated — so a later
`storage_getSeed` recomputes the seed via `mnemonic_to_seed` — but the
previous contents of the session buffers are retained, not zeroized (they
are zeroized only by `session_clear`: boot, wipe, `storage_loadDevice`).
After `storage_setPin` and commit only the cached-PIN flag is invalidated;
the seed and passphrase caches survive.  (Hypotheses: nothing else staged
stages a node or mnemonic or passphrase setting.) -/
theorem session_invalidation_amended (cu : List Nat → StorageHDNode)
    (m2s : List Nat → List Nat → List Nat) (mc : List Nat → Bool)
    (ppf : SessionState → Bool × SessionState)
    (rom upd : Storage) (sess : SessionState) (b : Bool) (p : List Nat)
    (hn : upd.has_node = false) (hm : upd.has_mnemonic = false)
    (hpp : upd.has_passphrase_protection = false) :
    ((storage_commit_locked cu true rom
        (storage_setPassphraseProtection b upd sess).1
        (storage_setPassphraseProtection b upd sess).2).2.2.seedCached = false ∧
     (storage_commit_locked cu true rom
        (storage_setPassphraseProtection b upd sess).1
        (storage_setPassphraseProtection b upd sess).2).2.2.passphraseCached = false ∧
     (storage_commit_locked cu true rom
        (storage_setPassphraseProtection b upd sess).1
        (storage_setPassphraseProtection b upd sess).2).2.2.seed = sess.seed ∧
     (storage_commit_locked cu true rom
        (storage_setPassphraseProtection b upd sess).1
        (storage_setPassphraseProtection b upd sess).2).2.2.passphrase = sess.passphrase) ∧
    (∀ rom2 : Storage, rom2.has_mnemonic = true → mc rom2.mnemonic = true →
      (storage_getSeed m2s mc ppf rom2
        (storage_commit_locked cu true rom
          (storage_setPassphraseProtection b upd sess).1
          (storage_setPassphraseProtection b upd sess).2).2.2 false).1
        = some (m2s rom2.mnemonic [])) ∧
    ((storage_commit_locked cu true rom
        (storage_setPin p upd sess).1
        (storage_setPin p upd sess).2).2.2.pinCached = false ∧
     (storage_commit_locked cu true rom
        (storage_setPin p upd sess).1
        (storage_setPin p upd sess).2).2.2.seedCached = sess.seedCached ∧
     (storage_commit_locked cu true rom
        (storage_setPin p upd sess).1
        (storage_setPin p upd sess).2).2.2.seed = sess.seed ∧
     (storage_commit_locked cu true rom
        (storage_setPin p upd sess).1
        (storage_setPin p upd sess).2).2.2.passphraseCached = sess.passphraseCached) := by
  refine ⟨⟨?_, ?_, ?_, ?_⟩, ?_, ⟨?_, ?_, ?_, ?_⟩⟩ <;>
    try simp [storage_commit_locked, commitSession, storage_setPassphraseProtection,
              storage_setPin, hn, hm, hpp]
  intro rom2 h2 hmc
  simp [storage_commit_locked, commitSession, storage_setPassphraseProtection,
        hn, hm, storage_getSeed, h2, hmc]

/-- C7 witness: the amended statement at a concrete session with a cached
seed and passphrase. -/
theorem session_invalidation_amended_witness :
    ((storage_commit_locked trivialCu true emptyStorage
        (storage_setPassphraseProtection true emptyStorage
          ⟨true, false, List.replicate 64 7, true, true, [99]⟩).1
        (storage_setPassphraseProtection true emptyStorage
          ⟨true, false, List.replicate 64 7, true, true, [99]⟩).2).2.2.seedCached = false) ∧
    ((storage_commit_locked trivialCu true emptyStorage
        (storage_setPassphraseProtection true emptyStorage
          ⟨true, false, List.replicate 64 7, true, true, [99]⟩).1
        (storage_setPassphraseProtection true emptyStorage
          ⟨true, false, List.replicate 64 7, true, true, [99]⟩).2).2.2.seed
      = List.replicate 64 7) := by
  have h := session_invalidation_amended trivialCu (fun _ _ => []) (fun _ => true)
    (fun s => (true, s)) emptyStorage emptyStorage
    ⟨true, false, List.replicate 64 7, true, true, [99]⟩ true [49]
    (by decide) (by decide) (by decide)
  exact ⟨h.1.1, h.1.2.2.1⟩

/-- C1 counterexample: with no cached passphrase and an explicitly supplied
passphrase "x" (byte 120), `session_getState` succeeds but keys the
HMAC-SHA-256 computation with the cached `sessionPassphrase` buffer — here
the empty string — not with the supplied passphrase: the key handed to the
primitive is `[]`, not `[120]`.  The claim's asserted key (the supplied
passphrase) is therefore wrong. -/
theorem session_getState_ignores_supplied_passphrase :
    session_getState [] (List.replicate 12 0) (some (List.replicate 32 0)) (some [120])
      ⟨false, false, List.replicate 64 0, false, false, []⟩
      = some (List.replicate 32 0,
              { key := [], msg := List.replicate 32 0 ++ List.replicate 12 0 }) ∧
    ([] : List Nat) ≠ [120] := by
  exact ⟨by decide, by decide⟩

/-- C1 (amended): `session_getState` fails exactly when no passphrase is
supplied and none is cached.  On success, `state[0..32]` is the provided
32-byte salt (or 32 random bytes when no salt is given) and `state[32..64]`
is HMAC-SHA-256 keyed with the CACHED session passphrase — the supplied
passphrase argument acts only as a non-null flag and is otherwise ignored —
over `state[0..32] ++ uuid`. -/
theorem session_getState_amended (rnd uuid : List Nat) (sess : SessionState)
    (salt pass : Option (List Nat)) :
    (session_getState rnd uuid salt pass sess = none ↔
      (pass = none ∧ sess.passphraseCached = false)) ∧
    (∀ s : List Nat, salt = some s → s.length = 32 →
      (pass ≠ none ∨ sess.passphraseCached = true) →
      session_getState rnd uuid salt pass sess
        = some (s, { key := sess.passphrase, msg := s ++ uuid })) ∧
    ((pass ≠ none ∨ sess.passphraseCached = true) →
      session_getState rnd uuid none pass sess
        = some (rnd.take 32, { key := sess.passphrase, msg := rnd.take 32 ++ uuid })) := by
  refine ⟨?_, ?_, ?_⟩
  · cases pass with
    | none => cases hc : sess.passphraseCached <;> simp [session_getState, hc]
    | some p => simp [session_getState]
  · intro s hs hlen hor
    subst hs
    have hcond : ¬ (pass.isNone && !sess.passphraseCached) = true := by
      cases pass with
      | none =>
        cases hor with
        | inl h => exact absurd rfl h
        | inr h => simp [h]
      | some p => simp
    simp only [session_getState, hcond, if_false, Bool.false_eq_true]
    rw [List.take_of_length_le (by omega)]
  · intro hor
    have hcond : ¬ (pass.isNone && !sess.passphraseCached) = true := by
      cases pass with
      | none =>
        cases hor with
        | inl h => exact absurd rfl h
        | inr h => simp [h]
      | some p => simp
    simp only [session_getState]
    rw [if_neg (by simpa using hcond)]

/-- C1 witness: a cached passphrase "hi", no supplied passphrase, an explicit
all-5 salt: the call succeeds with the cached passphrase as HMAC key. -/
theorem session_getState_amended_witness :
    session_getState [] (List.replicate 12 3) (some (List.replicate 32 5)) none
      ⟨false, false, [], false, true, [104, 105]⟩
      = some (List.replicate 32 5,
              { key := [104, 105], msg := List.replicate 32 5 ++ List.replicate 12 3 }) := by
  have h := session_getState_amended [] (List.replicate 12 3)
    ⟨false, false, [], false, true, [104, 105]⟩ (some (List.replicate 32 5)) none
  exact h.2.1 (List.replicate 32 5) rfl (by decide) (Or.inr rfl)

/-- C9: `storage_from_flash` fails exactly on a wrong magic word or a stored
version above `STORAGE_VERSION`; in either case `storage_init` wipes the
device: the session is cleared (and zeroized), the uuid is regenerated, an
empty record is committed under a fresh magic, and the PIN/U2F sector is
erased with the U2F offset reset. -/
theorem storage_init_wipes_on_invalid_storage (cu : List Nat → StorageHDNode)
    (migrate : DeviceState → DeviceState) (newUuid : List Nat) (d : DeviceState)
    (h : storage_from_flash_result d = false) :
    (∀ d2 : DeviceState, storage_from_flash_result d2 = false ↔
      (d2.magic ≠ 0x726f7473 ∨ d2.rom.version > 0x10001)) ∧
    storage_init cu migrate newUuid d
      = storage_wipe cu newUuid { d with upd := emptyStorage } ∧
    (storage_init cu migrate newUuid d).sess = session_clear true d.sess ∧
    (storage_init cu migrate newUuid d).uuid = newUuid ∧
    (storage_init cu migrate newUuid d).rom = emptyStorage ∧
    (storage_init cu migrate newUuid d).upd = emptyStorage ∧
    (storage_init cu migrate newUuid d).magic = storage_magic ∧
    (storage_init cu migrate newUuid d).pinArea = freshPinArea ∧
    (storage_init cu migrate newUuid d).u2fArea = freshU2FArea ∧
    (storage_init cu migrate newUuid d).u2fOffset = 0 := by
  have hiff : ∀ d2 : DeviceState, storage_from_flash_result d2 = false ↔
      (d2.magic ≠ 0x726f7473 ∨ d2.rom.version > 0x10001) := by
    intro d2
    unfold storage_from_flash_result storage_magic STORAGE_VERSION
    by_cases h1 : d2.magic ≠ 0x726f7473
    · simp [h1]
    · by_cases h2 : d2.rom.version > 0x10001 <;> simp [h1, h2]
  have hres : storage_from_flash_result { d with upd := emptyStorage } = false := by
    rw [hiff]
    have := (hiff d).mp h
    simpa using this
  have hinit : storage_init cu migrate newUuid d
      = storage_wipe cu newUuid { d with upd := emptyStorage } := by
    unfold storage_init
    simp [hres]
  refine ⟨hiff, hinit, ?_, ?_, ?_, ?_, ?_, ?_, ?_, ?_⟩ <;>
    rw [hinit] <;>
    simp [storage_wipe, storage_clearPinArea, storage_commit_locked]

/-- C9 witness: a device with a cleared magic word fails `storage_from_flash`
and boots into the wiped state. -/
theorem storage_init_wipes_on_invalid_storage_witness :
    storage_from_flash_result { freshDevice with magic := 0 } = false ∧
    (storage_init trivialCu id [1, 2, 3] { freshDevice with magic := 0 }).rom
      = emptyStorage ∧
    (storage_init trivialCu id [1, 2, 3] { freshDevice with magic := 0 }).uuid
      = [1, 2, 3] ∧
    (storage_init trivialCu id [1, 2, 3] { freshDevice with magic := 0 }).magic
      = storage_magic := by
  have hres : storage_from_flash_result { freshDevice with magic := 0 } = false := by
    decide
  have h := storage_init_wipes_on_invalid_storage trivialCu id [1, 2, 3]
    { freshDevice with magic := 0 } hres
  exact ⟨hres, h.2.2.2.2.1, h.2.2.2.1, h.2.2.2.2.2.2.1⟩
